import Mathlib

/-!
Shallow embedding of the WebSocket chat server of `resident-live-chat`,
translated from the reference server source (`src/unnamed/part_006`; the file
`src/server/server.js` is an earlier variant of the same server that lacks the
rate limiter, the sanitizer, the minimum-length check and the system notices
that the specification describes, so the reference server is the one modelled).

Modelling choices:
* a transport connection (socket) is an opaque handle, modelled as a `Nat`;
* a JavaScript `Map` keyed by sockets is an association list `List (Nat × α)`
  with JS `Map` semantics: `set` on an existing key updates the value in place
  (keeping insertion order), `values()` iterates in insertion order;
* an inbound frame's text (`RawFrame`) either fails `JSON.parse`, or is the
  literal `'null'` - which parses, but then the handler's first `msg.type`
  access throws an uncaught `TypeError` that crashes the process - or parses
  to any other value, whose `type` / `username` / `message` fields are each a
  string or some non-string value (`JSVal.nonStr` - absent, number, ...);
  `handleRaw` is the full handler over `RawFrame` (`HandlerOutcome.crash`
  marks the escaping exception); `Frame` / `handleMessage` model its
  non-crashing fragment, on which the two agree (`handleRaw_eq_handleMessage`);
* `Date.now()` is passed in as the event timestamp `now : Int`;
* `crypto.randomUUID()` is passed in as an opaque fresh identifier `fresh : Nat`;
* `broadcast(payload)` stringifies a payload and sends it to every open
  socket; the model records the list of payloads handed to `broadcast`
  (the fan-out to individual sockets carries no claim-relevant state).
-/

/-- A JavaScript value as far as the server inspects message fields:
either a string (a list of characters) or some non-string value. -/
inductive JSVal where
  | str (s : List Char)
  | nonStr
deriving DecidableEq, Repr

/-- The result of a successful `JSON.parse` of an inbound frame, restricted to
the three fields the server reads. -/
structure ParsedMsg where
  type : JSVal
  username : JSVal
  message : JSVal
deriving DecidableEq, Repr

/-- An inbound frame the handler can read fields from: either unparseable
JSON or a message parsed from non-`null` JSON text. (The text `'null'` also
parses but crashes the handler at the first `msg.type` access; that path is
carried by `RawFrame.nullLiteral` / `handleRaw`, not by this type.) -/
inductive Frame where
  | malformed
  | parsed (msg : ParsedMsg)
deriving DecidableEq, Repr

/-- Per-socket rate limiter state: `{ count, lastReset }` from `checkRateLimit`. -/
structure RateState where
  count : Nat
  lastReset : Int
deriving DecidableEq, Repr

/-- `Map.prototype.get`: first (unique) binding of the key, if any. -/
def mapGet {α : Type} (m : List (Nat × α)) (k : Nat) : Option α :=
  match m with
  | [] => none
  | (k', v) :: rest => if k' = k then some v else mapGet rest k

/-- `Map.prototype.set`: replace in place if the key is present (JS `Map`
keeps the original insertion position), otherwise append. -/
def mapSet {α : Type} (m : List (Nat × α)) (k : Nat) (v : α) : List (Nat × α) :=
  match m with
  | [] => [(k, v)]
  | (k', v') :: rest => if k' = k then (k, v) :: rest else (k', v') :: mapSet rest k v

/-- `Map.prototype.delete`: drop every binding of the key. -/
def mapDelete {α : Type} (m : List (Nat × α)) (k : Nat) : List (Nat × α) :=
  match m with
  | [] => []
  | (k', v) :: rest => if k' = k then mapDelete rest k else (k', v) :: mapDelete rest k

/-- `Array.from(map.values())`: values in insertion order. -/
def mapValues {α : Type} (m : List (Nat × α)) : List α := m.map Prod.snd

/-- The two module-level maps of the server:
`connectedClientIdentityMap` and `socketRateLimiterState`. -/
structure ServerState where
  connectedClientIdentityMap : List (Nat × List Char)
  socketRateLimiterState : List (Nat × RateState)
deriving DecidableEq, Repr

/-- Server state at startup: both maps empty. -/
def initialState : ServerState := ⟨[], []⟩

/-- `checkRateLimit(socket)` from the source: returns the boolean the source
returns, paired with the rate-limiter map after the call (the source mutates
the map in place). -/
def checkRateLimit (now : Int) (sock : Nat) (rs : List (Nat × RateState)) :
    Bool × List (Nat × RateState) :=
  match mapGet rs sock with
  | none => (true, mapSet rs sock ⟨1, now⟩)
  | some st =>
    if now - st.lastReset > 10000 then
      (true, mapSet rs sock ⟨1, now⟩)
    else if 30 ≤ st.count then
      (false, rs)
    else
      (true, mapSet rs sock ⟨st.count + 1, st.lastReset⟩)

/-- JavaScript `String.prototype.trim` whitespace class (WhiteSpace and
LineTerminator code points actually representable here). -/
def isJsWhitespace (c : Char) : Bool :=
  c == ' ' || c == '\t' || c == '\n' || c == '\r' || c == '\x0b' || c == '\x0c' ||
  c == '\u00A0' || c == '\u1680' || c == '\u2028' || c == '\u2029' || c == '\uFEFF'

/-- `str.trim()`: drop leading and trailing whitespace. -/
def jsTrim (s : List Char) : List Char :=
  ((s.dropWhile isJsWhitespace).reverse.dropWhile isJsWhitespace).reverse

/-- `sanitizeString(str)` from the source:
non-strings map to `''`; otherwise `str.trim().replace(/[<>]/g, '').substring(0, 1000)`. -/
def sanitizeString (v : JSVal) : List Char :=
  match v with
  | .nonStr => []
  | .str s => ((jsTrim s).filter (fun c => !(c == '<' || c == '>'))).take 1000

/-- JavaScript truthiness of a string: nonempty. -/
def jsTruthy (s : List Char) : Bool := !s.isEmpty

/-- The string `'join'`. -/
def joinType : List Char := ['j', 'o', 'i', 'n']

/-- The string `'chat'`. -/
def chatType : List Char := ['c', 'h', 'a', 't']

/-- Strict equality `msg.type === '...'` against a string literal. -/
def typeIs (v : JSVal) (t : List Char) : Bool :=
  match v with
  | .str s => s == t
  | .nonStr => false

/-- The literal `' joined the conversation.'` appended after the name. -/
def joinedSuffix : List Char :=
  [' ', 'j', 'o', 'i', 'n', 'e', 'd', ' ', 't', 'h', 'e', ' ',
   'c', 'o', 'n', 'v', 'e', 'r', 's', 'a', 't', 'i', 'o', 'n', '.']

/-- The literal `' left the conversation.'` appended after the name. -/
def leftSuffix : List Char :=
  [' ', 'l', 'e', 'f', 't', ' ', 't', 'h', 'e', ' ',
   'c', 'o', 'n', 'v', 'e', 'r', 's', 'a', 't', 'i', 'o', 'n', '.']

/-- A payload handed to `broadcast`. -/
inductive OutMsg where
  | users (users : List (List Char))
  | system (message : List Char) (timestamp : Int)
  | chat (id : Nat) (username : List Char) (message : List Char) (timestamp : Int)
deriving DecidableEq, Repr

/-- The body of the `'message'` handler after the rate-limit gate and a
successful `JSON.parse`: the sequential `if (msg.type === 'join')` and
`if (msg.type === 'chat')` blocks, acting on `connectedClientIdentityMap`
and emitting broadcasts. -/
def handleParsed (fresh : Nat) (now : Int) (sock : Nat) (msg : ParsedMsg)
    (ident : List (Nat × List Char)) : List (Nat × List Char) × List OutMsg :=
  let step1 :=
    if typeIs msg.type joinType then
      let name := sanitizeString msg.username
      if 2 ≤ name.length then
        let ident' := mapSet ident sock name
        (ident', [OutMsg.users (mapValues ident'),
                  OutMsg.system (name ++ joinedSuffix) now])
      else (ident, ([] : List OutMsg))
    else (ident, ([] : List OutMsg))
  let out2 :=
    if typeIs msg.type chatType then
      match mapGet step1.1 sock with
      | some name =>
        let content := sanitizeString msg.message
        if jsTruthy name && jsTruthy content then
          [OutMsg.chat fresh name content now]
        else []
      | none => []
    else []
  (step1.1, step1.2 ++ out2)

/-- The `socket.on('message', ...)` handler on the non-crashing frames
(`Frame`): `checkRateLimit` first (silent drop on `false`), then `JSON.parse`
(silent drop on failure), then the join/chat dispatch. The `'null'` crash
path lives in `handleRaw`, which agrees with this function on `Frame`. -/
def handleMessage (fresh : Nat) (now : Int) (sock : Nat) (frame : Frame)
    (s : ServerState) : ServerState × List OutMsg :=
  let rl := checkRateLimit now sock s.socketRateLimiterState
  if rl.1 then
    match frame with
    | .malformed => ({ s with socketRateLimiterState := rl.2 }, [])
    | .parsed msg =>
      let r := handleParsed fresh now sock msg s.connectedClientIdentityMap
      ({ connectedClientIdentityMap := r.1, socketRateLimiterState := rl.2 }, r.2)
  else
    ({ s with socketRateLimiterState := rl.2 }, [])

/-- The `socket.on('close', ...)` handler: delete from both maps, and if the
socket held a (truthy) identity, broadcast the updated roster and a departure
notice. -/
def handleClose (now : Int) (sock : Nat) (s : ServerState) : ServerState × List OutMsg :=
  let name := mapGet s.connectedClientIdentityMap sock
  let ident' := mapDelete s.connectedClientIdentityMap sock
  let rate' := mapDelete s.socketRateLimiterState sock
  match name with
  | some n =>
    if jsTruthy n then
      (⟨ident', rate'⟩, [OutMsg.users (mapValues ident'),
                         OutMsg.system (n ++ leftSuffix) now])
    else (⟨ident', rate'⟩, [])
  | none => (⟨ident', rate'⟩, [])

/-- The `socket.on('error', ...)` handler: delete from both maps, nothing else. -/
def handleError (sock : Nat) (s : ServerState) : ServerState × List OutMsg :=
  (⟨mapDelete s.connectedClientIdentityMap sock,
    mapDelete s.socketRateLimiterState sock⟩, [])

/-- One transport event delivered to the server. -/
inductive Event where
  | message (fresh : Nat) (now : Int) (sock : Nat) (frame : Frame)
  | close (now : Int) (sock : Nat)
  | error (sock : Nat)
deriving DecidableEq, Repr

/-- Dispatch one event to its handler. -/
def step (s : ServerState) (e : Event) : ServerState × List OutMsg :=
  match e with
  | .message fresh now sock frame => handleMessage fresh now sock frame s
  | .close now sock => handleClose now sock s
  | .error sock => handleError sock s

/-- Run a sequence of events (single-threaded, in arrival order), collecting
every broadcast payload in order. -/
def run (s : ServerState) (es : List Event) : ServerState × List OutMsg :=
  match es with
  | [] => (s, [])
  | e :: rest =>
    let r := step s e
    let r' := run r.1 rest
    (r'.1, r.2 ++ r'.2)

/-- Number of chat broadcasts in an output trace. -/
def countChats (outs : List OutMsg) : Nat :=
  (outs.filter fun o => match o with | .chat _ _ _ _ => true | _ => false).length

/-- Number of chat broadcasts whose timestamp lies in `[lo, hi]`. -/
def countChatsBetween (lo hi : Int) (outs : List OutMsg) : Nat :=
  (outs.filter fun o =>
    match o with | .chat _ _ _ t => lo ≤ t && t ≤ hi | _ => false).length

/-- The sanitization contract as the specification words it: non-text input is
treated as empty; otherwise leading/trailing whitespace is trimmed, every `<`
and `>` character is removed, and the result is truncated to 1000 characters. -/
def sanitizeSpecContract (v : JSVal) : List Char :=
  match v with
  | .nonStr => []
  | .str s => ((jsTrim s).filter (fun c => decide (c ∉ ['<', '>']))).take 1000

/-- A join frame carrying username `'al'`. -/
def joinFrameAl : Frame :=
  Frame.parsed ⟨JSVal.str joinType, JSVal.str ['a', 'l'], JSVal.nonStr⟩

/-- A chat frame carrying message `'hi'` (and no username field). -/
def chatFrameHi : Frame :=
  Frame.parsed ⟨JSVal.str chatType, JSVal.nonStr, JSVal.str ['h', 'i']⟩

/-- Socket 0 sends the `'al'` join at time `now`. -/
def joinAl (now : Int) : Event := Event.message 0 now 0 joinFrameAl

/-- Socket 0 sends the `'hi'` chat at time `now`. -/
def chatHi (now : Int) : Event := Event.message 1 now 0 chatFrameHi

/-- An event that could attach an identity to `sock`: a message on `sock`
whose parsed type is `'join'` and whose sanitized username passes the length
check. (Whether it actually attaches also depends on the rate limiter.) -/
def isAcceptableJoinFor (sock : Nat) (e : Event) : Bool :=
  match e with
  | Event.message _ _ s (Frame.parsed m) =>
      s == sock && typeIs m.type joinType &&
        decide (2 ≤ (sanitizeString m.username).length)
  | _ => false

/-- The shape every stored identity has: it passed the length check and was
produced by the sanitizer. -/
def goodName (n : List Char) : Prop :=
  2 ≤ n.length ∧ n.length ≤ 1000 ∧ '<' ∉ n ∧ '>' ∉ n

instance (n : List Char) : Decidable (goodName n) := by
  unfold goodName; infer_instance

/-- The raw text of an inbound frame, partitioned as finely as the handler
distinguishes it: text `JSON.parse` rejects; the text `'null'`, which parses
to `null` so that the very first property access `msg.type` (in the
`console.log` template on line 72 of the source) throws a `TypeError`; and
text parsing to any other value, whose `type` / `username` / `message`
property reads all succeed (on non-object values they yield `undefined`,
i.e. `JSVal.nonStr`). -/
inductive RawFrame where
  | unparseable
  | nullLiteral
  | value (msg : ParsedMsg)
deriving DecidableEq, Repr

/-- How one invocation of the `'message'` listener ends: normally, with the
new server state and the broadcasts it made, or by an uncaught exception
escaping the listener (which brings the Node process down), leaving the
state as mutated so far and no broadcasts. -/
inductive HandlerOutcome where
  | ok (s : ServerState) (out : List OutMsg)
  | crash (s : ServerState)
deriving DecidableEq, Repr

/-- The whole `socket.on('message', ...)` handler on raw input:
`checkRateLimit` first (silent drop on `false`, before any parsing - so even
a `'null'` frame is dropped harmlessly when the window is exhausted), then
`JSON.parse` (silent drop on failure), then the `msg.type` read - which
throws on a `null` parse result, after the rate quota was already
consumed - then the join/chat dispatch. -/
def handleRaw (fresh : Nat) (now : Int) (sock : Nat) (raw : RawFrame)
    (s : ServerState) : HandlerOutcome :=
  let rl := checkRateLimit now sock s.socketRateLimiterState
  if rl.1 then
    match raw with
    | .unparseable => .ok { s with socketRateLimiterState := rl.2 } []
    | .nullLiteral => .crash { s with socketRateLimiterState := rl.2 }
    | .value msg =>
      let r := handleParsed fresh now sock msg s.connectedClientIdentityMap
      .ok ⟨r.1, rl.2⟩ r.2
  else
    .ok { s with socketRateLimiterState := rl.2 } []

set_option maxRecDepth 10000

/-! ### Association-list map lemmas -/

theorem mapValues_cons {α : Type} (k : Nat) (v : α) (rest : List (Nat × α)) :
    mapValues ((k, v) :: rest) = v :: mapValues rest := rfl

theorem mapGet_mapSet_self {α : Type} (m : List (Nat × α)) (k : Nat) (v : α) :
    mapGet (mapSet m k v) k = some v := by
  induction m with
  | nil => simp [mapSet, mapGet]
  | cons p rest ih =>
    obtain ⟨k', v'⟩ := p
    by_cases h : k' = k <;> simp [mapSet, mapGet, h, ih]

theorem mapGet_mapSet_ne {α : Type} (m : List (Nat × α)) (k k' : Nat) (v : α)
    (h : k' ≠ k) : mapGet (mapSet m k v) k' = mapGet m k' := by
  have h' : k ≠ k' := fun hh => h hh.symm
  induction m with
  | nil => simp [mapSet, mapGet, h']
  | cons p rest ih =>
    obtain ⟨k'', v''⟩ := p
    by_cases h2 : k'' = k
    · have h3 : k'' ≠ k' := by rw [h2]; exact h'
      simp [mapSet, if_pos h2, mapGet, h', h3]
    · by_cases h4 : k'' = k' <;> simp [mapSet, if_neg h2, mapGet, h4, h, ih]

theorem mapGet_mapDelete_self {α : Type} (m : List (Nat × α)) (k : Nat) :
    mapGet (mapDelete m k) k = none := by
  induction m with
  | nil => simp [mapDelete, mapGet]
  | cons p rest ih =>
    obtain ⟨k', v⟩ := p
    by_cases h : k' = k <;> simp [mapDelete, mapGet, h, ih]

theorem mem_mapValues_mapSet {α : Type} {x v : α} {m : List (Nat × α)} {k : Nat}
    (h : x ∈ mapValues (mapSet m k v)) : x = v ∨ x ∈ mapValues m := by
  induction m with
  | nil =>
    simp only [mapSet, mapValues, List.map_cons, List.map_nil] at h
    exact Or.inl (List.mem_singleton.mp h)
  | cons p rest ih =>
    obtain ⟨k', v'⟩ := p
    by_cases h2 : k' = k
    · simp only [mapSet, if_pos h2, mapValues_cons] at h
      rcases List.mem_cons.mp h with h3 | h3
      · exact Or.inl h3
      · exact Or.inr (by rw [mapValues_cons]; exact List.mem_cons_of_mem _ h3)
    · simp only [mapSet, if_neg h2, mapValues_cons] at h
      rcases List.mem_cons.mp h with h3 | h3
      · exact Or.inr (by rw [mapValues_cons, h3]; exact List.mem_cons_self _ _)
      · rcases ih h3 with h4 | h4
        · exact Or.inl h4
        · exact Or.inr (by rw [mapValues_cons]; exact List.mem_cons_of_mem _ h4)

theorem mem_mapValues_mapDelete {α : Type} {x : α} {m : List (Nat × α)} {k : Nat}
    (h : x ∈ mapValues (mapDelete m k)) : x ∈ mapValues m := by
  induction m with
  | nil => simpa [mapDelete] using h
  | cons p rest ih =>
    obtain ⟨k', v'⟩ := p
    by_cases h2 : k' = k
    · simp only [mapDelete, if_pos h2] at h
      rw [mapValues_cons]
      exact List.mem_cons_of_mem _ (ih h)
    · simp only [mapDelete, if_neg h2, mapValues_cons] at h
      rcases List.mem_cons.mp h with h3 | h3
      · rw [mapValues_cons, h3]
        exact List.mem_cons_self _ _
      · rw [mapValues_cons]
        exact List.mem_cons_of_mem _ (ih h3)

/-! ### Sanitizer lemmas -/

theorem sanitizeString_not_mem_lt (v : JSVal) : '<' ∉ sanitizeString v := by
  cases v with
  | nonStr => simp [sanitizeString]
  | str s =>
    intro h
    have h1 := List.mem_of_mem_take h
    have h2 := (List.mem_filter.mp h1).2
    simp at h2

theorem sanitizeString_not_mem_gt (v : JSVal) : '>' ∉ sanitizeString v := by
  cases v with
  | nonStr => simp [sanitizeString]
  | str s =>
    intro h
    have h1 := List.mem_of_mem_take h
    have h2 := (List.mem_filter.mp h1).2
    simp at h2

theorem sanitizeString_length_le (v : JSVal) : (sanitizeString v).length ≤ 1000 := by
  cases v with
  | nonStr => simp [sanitizeString]
  | str s => exact List.length_take_le 1000 _

theorem typeIs_chat_not_join {v : JSVal} (h : typeIs v chatType = true) :
    typeIs v joinType = false := by
  cases v with
  | nonStr => rfl
  | str s =>
    simp only [typeIs, beq_iff_eq] at h ⊢
    rw [h]
    decide

theorem typeIs_join_not_chat {v : JSVal} (h : typeIs v joinType = true) :
    typeIs v chatType = false := by
  cases v with
  | nonStr => rfl
  | str s =>
    simp only [typeIs, beq_iff_eq] at h ⊢
    rw [h]
    decide

/-- On a chat-typed message, the handler body reduces to the chat branch:
the registry is read (never written) and at most one chat payload is emitted. -/
theorem handleParsed_chat (fresh : Nat) (now : Int) (sock : Nat) (msg : ParsedMsg)
    (ident : List (Nat × List Char)) (h : typeIs msg.type chatType = true) :
    handleParsed fresh now sock msg ident =
      (ident,
       match mapGet ident sock with
       | some name =>
         if jsTruthy name && jsTruthy (sanitizeString msg.message) then
           [OutMsg.chat fresh name (sanitizeString msg.message) now]
         else []
       | none => []) := by
  have hj := typeIs_chat_not_join h
  simp only [handleParsed, hj, h, Bool.false_eq_true, if_false, if_true, List.nil_append]

/-- On a join-typed message, the handler body reduces to the join branch. -/
theorem handleParsed_join (fresh : Nat) (now : Int) (sock : Nat) (msg : ParsedMsg)
    (ident : List (Nat × List Char)) (h : typeIs msg.type joinType = true) :
    handleParsed fresh now sock msg ident =
      (if 2 ≤ (sanitizeString msg.username).length then
        (mapSet ident sock (sanitizeString msg.username),
         [OutMsg.users (mapValues (mapSet ident sock (sanitizeString msg.username))),
          OutMsg.system (sanitizeString msg.username ++ joinedSuffix) now])
       else (ident, [])) := by
  have hc := typeIs_join_not_chat h
  simp only [handleParsed, hc, h, Bool.false_eq_true, if_false, if_true, List.append_nil]

/-- On a message whose type is neither `'join'` nor `'chat'`, the handler body
does nothing. -/
theorem handleParsed_other (fresh : Nat) (now : Int) (sock : Nat) (msg : ParsedMsg)
    (ident : List (Nat × List Char)) (hj : typeIs msg.type joinType = false)
    (hc : typeIs msg.type chatType = false) :
    handleParsed fresh now sock msg ident = (ident, []) := by
  simp only [handleParsed, hj, hc, Bool.false_eq_true, if_false, List.append_nil]

/-- The broadcasts of a parsed message: gated by the rate limiter, then the
join/chat dispatch. -/
theorem handleMessage_parsed_out (fresh : Nat) (now : Int) (sock : Nat)
    (msg : ParsedMsg) (s : ServerState) :
    (handleMessage fresh now sock (Frame.parsed msg) s).2 =
      (if (checkRateLimit now sock s.socketRateLimiterState).1 then
        (handleParsed fresh now sock msg s.connectedClientIdentityMap).2
       else []) := by
  simp only [handleMessage]
  split <;> rfl

/-- The registry after a parsed message: gated by the rate limiter, then the
join/chat dispatch. -/
theorem handleMessage_parsed_ident (fresh : Nat) (now : Int) (sock : Nat)
    (msg : ParsedMsg) (s : ServerState) :
    (handleMessage fresh now sock (Frame.parsed msg) s).1.connectedClientIdentityMap =
      (if (checkRateLimit now sock s.socketRateLimiterState).1 then
        (handleParsed fresh now sock msg s.connectedClientIdentityMap).1
       else s.connectedClientIdentityMap) := by
  simp only [handleMessage]
  split <;> rfl

/-- Every inbound frame, of any shape, leaves the rate-limiter map exactly as
`checkRateLimit` leaves it. -/
theorem handleMessage_rateState (fresh : Nat) (now : Int) (sock : Nat)
    (frame : Frame) (s : ServerState) :
    (handleMessage fresh now sock frame s).1.socketRateLimiterState =
      (checkRateLimit now sock s.socketRateLimiterState).2 := by
  simp only [handleMessage]
  split
  · cases frame <;> rfl
  · rfl

/-- A frame that fails `JSON.parse` only updates the rate limiter. -/
theorem handleMessage_malformed (fresh : Nat) (now : Int) (sock : Nat)
    (s : ServerState) :
    handleMessage fresh now sock Frame.malformed s =
      ({ s with socketRateLimiterState :=
          (checkRateLimit now sock s.socketRateLimiterState).2 }, []) := by
  simp only [handleMessage]
  split <;> rfl

/-- A rate-limited frame produces no broadcast and leaves the registry alone. -/
theorem handleMessage_rate_rejected (fresh : Nat) (now : Int) (sock : Nat)
    (frame : Frame) (s : ServerState)
    (h : (checkRateLimit now sock s.socketRateLimiterState).1 = false) :
    (handleMessage fresh now sock frame s).2 = [] ∧
    (handleMessage fresh now sock frame s).1.connectedClientIdentityMap =
      s.connectedClientIdentityMap := by
  simp only [handleMessage, h, Bool.false_eq_true, if_false]
  exact ⟨trivial, trivial⟩

theorem filter_pred_eq_contract (c : Char) :
    (!(c == '<' || c == '>')) = decide (c ∉ ['<', '>']) := by
  by_cases h1 : c = '<'
  · subst h1; decide
  · by_cases h2 : c = '>'
    · subst h2; decide
    · simp [h1, h2]

theorem sanitizeString_eq_contract (v : JSVal) :
    sanitizeString v = sanitizeSpecContract v := by
  cases v with
  | nonStr => rfl
  | str s =>
    simp only [sanitizeString, sanitizeSpecContract]
    have hp : (fun c => !(c == '<' || c == '>')) =
        (fun c : Char => decide (c ∉ ['<', '>'])) := funext filter_pred_eq_contract
    rw [hp]

/-- C4 counterexample: the claim says every broadcast message field has length
at most 1000, but a join with a 1000-character username is accepted and the
`system` join notice then carries a message of 1025 characters. -/
theorem c4_counterexample :
    (handleMessage 0 0 0
        (Frame.parsed ⟨JSVal.str joinType, JSVal.str (List.replicate 1000 'a'), JSVal.nonStr⟩)
        initialState).2 =
      [OutMsg.users [List.replicate 1000 'a'],
       OutMsg.system (List.replicate 1000 'a' ++ joinedSuffix) 0] ∧
    1000 < (List.replicate 1000 'a' ++ joinedSuffix).length := by
  exact ⟨by decide, by decide⟩

/-- C4 (amended): the sanitization applied to usernames and message text equals
the reference definition (non-string to empty; trim, remove every `<` and `>`,
truncate to 1000), every sanitizer output contains neither `<` nor `>` and has
length at most 1000, and hence every broadcast *chat* payload's message field
contains neither `<` nor `>` and has length at most 1000 (a `system` join/leave
notice also contains neither character but may reach 1025 characters). -/
theorem c4_sanitizer_contract :
    (∀ v, sanitizeString v = sanitizeSpecContract v) ∧
    (∀ v, '<' ∉ sanitizeString v ∧ '>' ∉ sanitizeString v ∧
      (sanitizeString v).length ≤ 1000) ∧
    (∀ (fresh : Nat) (now : Int) (sock : Nat) (msg : ParsedMsg) (s : ServerState)
       (i : Nat) (u m : List Char) (t : Int),
       OutMsg.chat i u m t ∈ (handleMessage fresh now sock (Frame.parsed msg) s).2 →
       '<' ∉ m ∧ '>' ∉ m ∧ m.length ≤ 1000) := by
  refine ⟨sanitizeString_eq_contract,
    fun v => ⟨sanitizeString_not_mem_lt v, sanitizeString_not_mem_gt v,
      sanitizeString_length_le v⟩, ?_⟩
  intro fresh now sock msg s i u m t h
  rw [handleMessage_parsed_out] at h
  by_cases hrl : (checkRateLimit now sock s.socketRateLimiterState).1 = true
  · rw [if_pos hrl] at h
    by_cases hj : typeIs msg.type joinType = true
    · rw [handleParsed_join _ _ _ _ _ hj] at h
      split at h <;> simp at h
    · have hj' : typeIs msg.type joinType = false := by
        revert hj; cases typeIs msg.type joinType <;> simp
      by_cases hc : typeIs msg.type chatType = true
      · rw [handleParsed_chat _ _ _ _ _ hc] at h
        cases hm : mapGet s.connectedClientIdentityMap sock with
        | none => rw [hm] at h; simp at h
        | some name =>
          rw [hm] at h
          dsimp only at h
          by_cases hg : (jsTruthy name && jsTruthy (sanitizeString msg.message)) = true
          · rw [if_pos hg] at h
            simp only [List.mem_singleton, OutMsg.chat.injEq] at h
            obtain ⟨-, -, hmm, -⟩ := h
            rw [hmm]
            exact ⟨sanitizeString_not_mem_lt _, sanitizeString_not_mem_gt _,
              sanitizeString_length_le _⟩
          · rw [if_neg hg] at h
            simp at h
      · have hc' : typeIs msg.type chatType = false := by
          revert hc; cases typeIs msg.type chatType <;> simp
        rw [handleParsed_other _ _ _ _ _ hj' hc'] at h
        simp at h
  · simp only [Bool.not_eq_true] at hrl
    rw [hrl] at h
    simp at h

/-- C4 witness: a concrete accepted chat whose broadcast message field the
theorem certifies. -/
theorem c4_sanitizer_contract_witness :
    OutMsg.chat 1 ['a', 'l'] ['h', 'i'] 0 ∈
      (handleMessage 1 0 0
        (Frame.parsed ⟨JSVal.str chatType, JSVal.nonStr, JSVal.str ['h', 'i']⟩)
        ⟨[(0, ['a', 'l'])], []⟩).2 ∧
    ('<' ∉ (['h', 'i'] : List Char) ∧ '>' ∉ (['h', 'i'] : List Char) ∧
      (['h', 'i'] : List Char).length ≤ 1000) := by
  refine ⟨by decide, ?_⟩
  exact c4_sanitizer_contract.2.2 1 0 0
    ⟨JSVal.str chatType, JSVal.nonStr, JSVal.str ['h', 'i']⟩
    ⟨[(0, ['a', 'l'])], []⟩ 1 ['a', 'l'] ['h', 'i'] 0 (by decide)

/-- C1: every broadcast produced by a chat-typed frame is a chat payload whose
username is exactly the identity stored in the registry for the sending
connection, and the handler's result does not depend on the inbound payload's
username field at all. -/
theorem c1_chat_username_from_registry (s : ServerState) (fresh : Nat) (now : Int)
    (sock : Nat) (msg : ParsedMsg) (h : typeIs msg.type chatType = true) :
    (∀ o ∈ (handleMessage fresh now sock (Frame.parsed msg) s).2,
       ∃ name content, mapGet s.connectedClientIdentityMap sock = some name ∧
         o = OutMsg.chat fresh name content now) ∧
    (∀ u : JSVal,
       handleMessage fresh now sock (Frame.parsed { msg with username := u }) s =
       handleMessage fresh now sock (Frame.parsed msg) s) := by
  constructor
  · intro o ho
    rw [handleMessage_parsed_out] at ho
    by_cases hrl : (checkRateLimit now sock s.socketRateLimiterState).1 = true
    · rw [if_pos hrl, handleParsed_chat _ _ _ _ _ h] at ho
      cases hm : mapGet s.connectedClientIdentityMap sock with
      | none => rw [hm] at ho; simp at ho
      | some name =>
        rw [hm] at ho
        dsimp only at ho
        by_cases hg : (jsTruthy name && jsTruthy (sanitizeString msg.message)) = true
        · rw [if_pos hg, List.mem_singleton] at ho
          exact ⟨name, sanitizeString msg.message, rfl, ho⟩
        · rw [if_neg hg] at ho
          simp at ho
    · simp only [Bool.not_eq_true] at hrl
      rw [hrl] at ho
      simp at ho
  · intro u
    have h2 : typeIs ({ msg with username := u } : ParsedMsg).type chatType = true := h
    simp only [handleMessage]
    rw [handleParsed_chat _ _ _ _ _ h2, handleParsed_chat _ _ _ _ _ h]

/-- C1 witness: a joined connection whose chat payload carries a forged
username still gets broadcast under the registry identity. -/
theorem c1_chat_username_from_registry_witness :
    typeIs (JSVal.str chatType) chatType = true ∧
    ((∀ o ∈ (handleMessage 1 0 0
        (Frame.parsed ⟨JSVal.str chatType, JSVal.str ['z', 'z'], JSVal.str ['h', 'i']⟩)
        ⟨[(0, ['a', 'l'])], []⟩).2,
       ∃ name content,
         mapGet (⟨[(0, ['a', 'l'])], []⟩ : ServerState).connectedClientIdentityMap 0 =
           some name ∧ o = OutMsg.chat 1 name content 0) ∧
    (∀ u : JSVal,
       handleMessage 1 0 0
         (Frame.parsed { (⟨JSVal.str chatType, JSVal.str ['z', 'z'], JSVal.str ['h', 'i']⟩ :
            ParsedMsg) with username := u }) ⟨[(0, ['a', 'l'])], []⟩ =
       handleMessage 1 0 0
         (Frame.parsed ⟨JSVal.str chatType, JSVal.str ['z', 'z'], JSVal.str ['h', 'i']⟩)
         ⟨[(0, ['a', 'l'])], []⟩)) :=
  ⟨by decide, c1_chat_username_from_registry ⟨[(0, ['a', 'l'])], []⟩ 1 0 0 _ (by decide)⟩

theorem mapGet_mapDelete_ne {α : Type} (m : List (Nat × α)) (k k' : Nat)
    (h : k' ≠ k) : mapGet (mapDelete m k) k' = mapGet m k' := by
  induction m with
  | nil => simp [mapDelete]
  | cons p rest ih =>
    obtain ⟨k'', v''⟩ := p
    by_cases h2 : k'' = k
    · have h3 : k'' ≠ k' := by rw [h2]; exact fun hh => h hh.symm
      simp [mapDelete, if_pos h2, mapGet, h3, ih]
    · by_cases h4 : k'' = k' <;> simp [mapDelete, if_neg h2, mapGet, h4, h, ih]

/-- The `'close'` handler in closed form. -/
theorem handleClose_eq (now : Int) (sock : Nat) (s : ServerState) :
    handleClose now sock s =
      (⟨mapDelete s.connectedClientIdentityMap sock,
        mapDelete s.socketRateLimiterState sock⟩,
       match mapGet s.connectedClientIdentityMap sock with
       | some n =>
         if jsTruthy n then
           [OutMsg.users (mapValues (mapDelete s.connectedClientIdentityMap sock)),
            OutMsg.system (n ++ leftSuffix) now]
         else []
       | none => []) := by
  simp only [handleClose]
  cases mapGet s.connectedClientIdentityMap sock
  · rfl
  · dsimp only
    split <;> rfl

/-- C5 counterexample: a chat from an unjoined connection produces no
broadcast, but the claim's "no state changes" is false - the rate limiter
records the frame. -/
theorem c5_counterexample :
    (handleMessage 1 0 0 chatFrameHi initialState).2 = [] ∧
    (handleMessage 1 0 0 chatFrameHi initialState).1 ≠ initialState ∧
    (handleMessage 1 0 0 chatFrameHi initialState).1.socketRateLimiterState =
      [(0, ⟨1, 0⟩)] := by
  refine ⟨by decide, by decide, by decide⟩

/-- C5 (amended): a chat-typed frame on a connection with no attached identity
produces no broadcast and leaves the registry unchanged (the rate-limit
counter is still consumed, because the limiter runs before the payload is
examined). -/
theorem c5_unjoined_chat_no_broadcast (s : ServerState) (fresh : Nat) (now : Int)
    (sock : Nat) (msg : ParsedMsg)
    (hc : typeIs msg.type chatType = true)
    (hn : mapGet s.connectedClientIdentityMap sock = none) :
    (handleMessage fresh now sock (Frame.parsed msg) s).2 = [] ∧
    (handleMessage fresh now sock (Frame.parsed msg) s).1.connectedClientIdentityMap =
      s.connectedClientIdentityMap := by
  constructor
  · rw [handleMessage_parsed_out]
    by_cases hrl : (checkRateLimit now sock s.socketRateLimiterState).1 = true
    · rw [if_pos hrl, handleParsed_chat _ _ _ _ _ hc, hn]
    · simp only [Bool.not_eq_true] at hrl
      rw [hrl]
      simp
  · rw [handleMessage_parsed_ident]
    by_cases hrl : (checkRateLimit now sock s.socketRateLimiterState).1 = true
    · rw [if_pos hrl, handleParsed_chat _ _ _ _ _ hc]
    · simp only [Bool.not_eq_true] at hrl
      rw [hrl]
      simp

/-- C5 witness: concrete unjoined chat. -/
theorem c5_unjoined_chat_no_broadcast_witness :
    (typeIs (JSVal.str chatType) chatType = true ∧
     mapGet initialState.connectedClientIdentityMap 0 = none) ∧
    ((handleMessage 1 0 0
        (Frame.parsed ⟨JSVal.str chatType, JSVal.nonStr, JSVal.str ['h', 'i']⟩)
        initialState).2 = [] ∧
     (handleMessage 1 0 0
        (Frame.parsed ⟨JSVal.str chatType, JSVal.nonStr, JSVal.str ['h', 'i']⟩)
        initialState).1.connectedClientIdentityMap =
       initialState.connectedClientIdentityMap) :=
  ⟨⟨by decide, by decide⟩,
   c5_unjoined_chat_no_broadcast initialState 1 0 0 _ (by decide) (by decide)⟩

/-- C9: a join whose sanitized username is shorter than 2 characters is
rejected silently: no broadcast, registry unchanged, connection still
unjoined. -/
theorem c9_short_username_join_rejected (s : ServerState) (fresh : Nat) (now : Int)
    (sock : Nat) (msg : ParsedMsg)
    (hj : typeIs msg.type joinType = true)
    (hshort : (sanitizeString msg.username).length < 2) :
    (handleMessage fresh now sock (Frame.parsed msg) s).2 = [] ∧
    (handleMessage fresh now sock (Frame.parsed msg) s).1.connectedClientIdentityMap =
      s.connectedClientIdentityMap := by
  have hlen : ¬ 2 ≤ (sanitizeString msg.username).length := by omega
  constructor
  · rw [handleMessage_parsed_out]
    by_cases hrl : (checkRateLimit now sock s.socketRateLimiterState).1 = true
    · rw [if_pos hrl, handleParsed_join _ _ _ _ _ hj, if_neg hlen]
    · simp only [Bool.not_eq_true] at hrl
      rw [hrl]
      simp
  · rw [handleMessage_parsed_ident]
    by_cases hrl : (checkRateLimit now sock s.socketRateLimiterState).1 = true
    · rw [if_pos hrl, handleParsed_join _ _ _ _ _ hj, if_neg hlen]
    · simp only [Bool.not_eq_true] at hrl
      rw [hrl]
      simp

/-- C9 witness: the one-character username `'a'` is rejected. -/
theorem c9_short_username_join_rejected_witness :
    (typeIs (JSVal.str joinType) joinType = true ∧
     (sanitizeString (JSVal.str ['a'])).length < 2) ∧
    ((handleMessage 0 0 0
        (Frame.parsed ⟨JSVal.str joinType, JSVal.str ['a'], JSVal.nonStr⟩)
        initialState).2 = [] ∧
     (handleMessage 0 0 0
        (Frame.parsed ⟨JSVal.str joinType, JSVal.str ['a'], JSVal.nonStr⟩)
        initialState).1.connectedClientIdentityMap =
       initialState.connectedClientIdentityMap) :=
  ⟨⟨by decide, by decide⟩,
   c9_short_username_join_rejected initialState 0 0 0 _ (by decide) (by decide)⟩

/-- C6 counterexample: a join whose sanitized username is valid is silently
dropped when the connection's rate window is exhausted (no identity attached,
no broadcast), and a join on a fresh connection does consume rate-limit quota
(the limiter runs on every inbound frame before parsing). -/
theorem c6_counterexample :
    (2 ≤ (sanitizeString (JSVal.str ['a', 'l'])).length ∧
     (handleMessage 0 0 0 joinFrameAl
        ⟨[], [(0, ⟨30, 0⟩)]⟩).1.connectedClientIdentityMap = [] ∧
     (handleMessage 0 0 0 joinFrameAl ⟨[], [(0, ⟨30, 0⟩)]⟩).2 = []) ∧
    (handleMessage 0 0 0 joinFrameAl initialState).1.socketRateLimiterState =
      [(0, ⟨1, 0⟩)] := by
  exact ⟨⟨by decide, by decide, by decide⟩, by decide⟩

/-- C6 (amended): the rate limiter gates every inbound frame - joins
included - before the payload is parsed: the rate-limiter map is always
updated exactly as `checkRateLimit` dictates (so a join consumes chat quota),
and when the check fails the frame - join or otherwise - is dropped silently
with no broadcast and no registry change. -/
theorem c6_rate_limiter_gates_joins (s : ServerState) (fresh : Nat) (now : Int)
    (sock : Nat) (frame : Frame) :
    (handleMessage fresh now sock frame s).1.socketRateLimiterState =
      (checkRateLimit now sock s.socketRateLimiterState).2 ∧
    ((checkRateLimit now sock s.socketRateLimiterState).1 = false →
      (handleMessage fresh now sock frame s).2 = [] ∧
      (handleMessage fresh now sock frame s).1.connectedClientIdentityMap =
        s.connectedClientIdentityMap) :=
  ⟨handleMessage_rateState fresh now sock frame s,
   fun h => handleMessage_rate_rejected fresh now sock frame s h⟩

/-- C6 witness: the inner implication discharged at a connection whose window
is exhausted. -/
theorem c6_rate_limiter_gates_joins_witness :
    (checkRateLimit 0 0
      (⟨[], [(0, ⟨30, 0⟩)]⟩ : ServerState).socketRateLimiterState).1 = false ∧
    ((handleMessage 0 0 0 joinFrameAl ⟨[], [(0, ⟨30, 0⟩)]⟩).2 = [] ∧
     (handleMessage 0 0 0 joinFrameAl
        ⟨[], [(0, ⟨30, 0⟩)]⟩).1.connectedClientIdentityMap =
       (⟨[], [(0, ⟨30, 0⟩)]⟩ : ServerState).connectedClientIdentityMap) :=
  ⟨by decide,
   (c6_rate_limiter_gates_joins ⟨[], [(0, ⟨30, 0⟩)]⟩ 0 0 0 joinFrameAl).2 (by decide)⟩

/-- On the non-crashing raw frames the full handler agrees with
`handleMessage`. -/
theorem handleRaw_eq_handleMessage (fresh : Nat) (now : Int) (sock : Nat)
    (s : ServerState) :
    handleRaw fresh now sock RawFrame.unparseable s =
      HandlerOutcome.ok (handleMessage fresh now sock Frame.malformed s).1
        (handleMessage fresh now sock Frame.malformed s).2 ∧
    ∀ msg : ParsedMsg,
      handleRaw fresh now sock (RawFrame.value msg) s =
        HandlerOutcome.ok (handleMessage fresh now sock (Frame.parsed msg) s).1
          (handleMessage fresh now sock (Frame.parsed msg) s).2 := by
  constructor
  · simp only [handleRaw, handleMessage]
    split <;> rfl
  · intro msg
    simp only [handleRaw, handleMessage]
    split <;> rfl

/-- C7 counterexample: (i) a frame that fails to parse is dropped with no
broadcast and no registry change, yet the rate-limiter map does change - the
limiter counts the frame before parsing; (ii) a frame whose text is the JSON
literal `'null'` parses and lacks any discriminator, but instead of being
ignored silently it crashes the listener with an uncaught `TypeError` at the
first `msg.type` access (after the quota was already consumed). -/
theorem c7_counterexample :
    (handleRaw 0 0 0 RawFrame.unparseable initialState =
       HandlerOutcome.ok ⟨[], [(0, ⟨1, 0⟩)]⟩ [] ∧
     initialState.socketRateLimiterState = []) ∧
    handleRaw 0 0 0 RawFrame.nullLiteral initialState =
      HandlerOutcome.crash ⟨[], [(0, ⟨1, 0⟩)]⟩ := by
  exact ⟨⟨by decide, by decide⟩, by decide⟩

/-- C7 (amended): a frame that fails to parse, or parses to a non-`null`
value whose type is neither `'join'` nor `'chat'`, is ignored silently - no
error, no broadcast, no registry change - but it consumes rate-limit quota,
because the limiter runs before the frame is parsed. A frame whose text is
the JSON literal `'null'`, however, is not ignored when the rate check
passes: reading `msg.type` on the `null` parse result throws an uncaught
`TypeError` that escapes the listener (crashing the process), with the quota
already consumed and the registry untouched; only when the rate check fails
is the `'null'` frame dropped silently, before parsing. -/
theorem c7_malformed_and_null_frame_handling (s : ServerState) (fresh : Nat)
    (now : Int) (sock : Nat) :
    (∀ raw : RawFrame,
       (raw = RawFrame.unparseable ∨
        ∃ msg, raw = RawFrame.value msg ∧ typeIs msg.type joinType = false ∧
          typeIs msg.type chatType = false) →
       handleRaw fresh now sock raw s =
         HandlerOutcome.ok
           ⟨s.connectedClientIdentityMap,
            (checkRateLimit now sock s.socketRateLimiterState).2⟩ []) ∧
    ((checkRateLimit now sock s.socketRateLimiterState).1 = true →
       handleRaw fresh now sock RawFrame.nullLiteral s =
         HandlerOutcome.crash
           ⟨s.connectedClientIdentityMap,
            (checkRateLimit now sock s.socketRateLimiterState).2⟩) ∧
    ((checkRateLimit now sock s.socketRateLimiterState).1 = false →
       handleRaw fresh now sock RawFrame.nullLiteral s =
         HandlerOutcome.ok
           ⟨s.connectedClientIdentityMap,
            (checkRateLimit now sock s.socketRateLimiterState).2⟩ []) := by
  refine ⟨?_, ?_, ?_⟩
  · intro raw h
    rcases h with h | ⟨msg, hf, hj, hc⟩
    · subst h
      simp only [handleRaw]
      split <;> rfl
    · subst hf
      simp only [handleRaw]
      by_cases hrl : (checkRateLimit now sock s.socketRateLimiterState).1 = true
      · rw [if_pos hrl]
        rw [handleParsed_other _ _ _ _ _ hj hc]
      · simp only [Bool.not_eq_true] at hrl
        simp only [hrl, Bool.false_eq_true, if_false]
  · intro hrl
    simp only [handleRaw]
    rw [if_pos hrl]
  · intro hrl
    simp only [handleRaw]
    simp only [hrl, Bool.false_eq_true, if_false]

/-- C7 witness: on a fresh connection (rate check passes) a malformed frame
is dropped silently with the quota consumed, and the `'null'` frame crashes. -/
theorem c7_malformed_and_null_frame_handling_witness :
    ((RawFrame.unparseable = RawFrame.unparseable ∨
      ∃ msg, RawFrame.unparseable = RawFrame.value msg ∧
        typeIs msg.type joinType = false ∧ typeIs msg.type chatType = false) ∧
     (checkRateLimit 0 0 initialState.socketRateLimiterState).1 = true) ∧
    (handleRaw 0 0 0 RawFrame.unparseable initialState =
       HandlerOutcome.ok ⟨initialState.connectedClientIdentityMap,
         (checkRateLimit 0 0 initialState.socketRateLimiterState).2⟩ [] ∧
     handleRaw 0 0 0 RawFrame.nullLiteral initialState =
       HandlerOutcome.crash ⟨initialState.connectedClientIdentityMap,
         (checkRateLimit 0 0 initialState.socketRateLimiterState).2⟩) :=
  ⟨⟨Or.inl rfl, by decide⟩,
   ⟨(c7_malformed_and_null_frame_handling initialState 0 0 0).1
      RawFrame.unparseable (Or.inl rfl),
    (c7_malformed_and_null_frame_handling initialState 0 0 0).2.1 (by decide)⟩⟩


/-- C8 counterexample: a transport error on a connection that holds an
identity removes it from both maps but broadcasts nothing - the roster is not
rebroadcast, unlike on close. -/
theorem c8_counterexample :
    mapGet (⟨[(0, ['a', 'l'])], [(0, ⟨1, 0⟩)]⟩ :
        ServerState).connectedClientIdentityMap 0 = some ['a', 'l'] ∧
    (handleError 0 ⟨[(0, ['a', 'l'])], [(0, ⟨1, 0⟩)]⟩).2 = [] ∧
    (handleClose 0 0 ⟨[(0, ['a', 'l'])], [(0, ⟨1, 0⟩)]⟩).2 =
      [OutMsg.users [], OutMsg.system (['a', 'l'] ++ leftSuffix) 0] := by
  exact ⟨by decide, by decide, by decide⟩

/-- C8 (amended): both transport-failure handlers remove the connection from
the registry and the rate-limiter map; the close handler additionally
rebroadcasts the roster (plus a departure notice) when the connection held an
identity, while the error handler broadcasts nothing. -/
theorem c8_disconnect_cleanup (now : Int) (sock : Nat) (s : ServerState) :
    ((handleClose now sock s).1.connectedClientIdentityMap =
        mapDelete s.connectedClientIdentityMap sock ∧
     (handleClose now sock s).1.socketRateLimiterState =
        mapDelete s.socketRateLimiterState sock ∧
     (∀ n, mapGet s.connectedClientIdentityMap sock = some n → jsTruthy n = true →
        (handleClose now sock s).2 =
          [OutMsg.users (mapValues (mapDelete s.connectedClientIdentityMap sock)),
           OutMsg.system (n ++ leftSuffix) now]) ∧
     (mapGet s.connectedClientIdentityMap sock = none →
        (handleClose now sock s).2 = [])) ∧
    handleError sock s =
      (⟨mapDelete s.connectedClientIdentityMap sock,
        mapDelete s.socketRateLimiterState sock⟩, []) := by
  refine ⟨⟨?_, ?_, ?_, ?_⟩, rfl⟩
  · rw [handleClose_eq]
  · rw [handleClose_eq]
  · intro n hn ht
    rw [handleClose_eq]
    dsimp only
    rw [hn]
    dsimp only
    rw [if_pos ht]
  · intro hn
    rw [handleClose_eq]
    dsimp only
    rw [hn]

/-- C8 witness: close and error on a joined connection. -/
theorem c8_disconnect_cleanup_witness :
    (mapGet (⟨[(0, ['a', 'l'])], [(0, ⟨1, 0⟩)]⟩ :
        ServerState).connectedClientIdentityMap 0 = some ['a', 'l'] ∧
     jsTruthy ['a', 'l'] = true) ∧
    (handleClose 0 0 ⟨[(0, ['a', 'l'])], [(0, ⟨1, 0⟩)]⟩).2 =
      [OutMsg.users (mapValues (mapDelete
          (⟨[(0, ['a', 'l'])], [(0, ⟨1, 0⟩)]⟩ :
            ServerState).connectedClientIdentityMap 0)),
       OutMsg.system (['a', 'l'] ++ leftSuffix) 0] :=
  ⟨⟨by decide, by decide⟩,
   (c8_disconnect_cleanup 0 0 ⟨[(0, ['a', 'l'])], [(0, ⟨1, 0⟩)]⟩).1.2.2.1
     ['a', 'l'] (by decide) (by decide)⟩

theorem countChats_append (a b : List OutMsg) :
    countChats (a ++ b) = countChats a + countChats b := by
  simp [countChats, List.filter_append]

/-- `checkRateLimit` inside a live window: reject at the cap, else count. -/
theorem checkRateLimit_within (now : Int) (sock : Nat) (c : Nat) (t : Int)
    (rs : List (Nat × RateState)) (hget : mapGet rs sock = some ⟨c, t⟩)
    (hwin : ¬ now - t > 10000) :
    checkRateLimit now sock rs =
      if 30 ≤ c then (false, rs) else (true, mapSet rs sock ⟨c + 1, t⟩) := by
  simp only [checkRateLimit, hget]
  rw [if_neg hwin]

/-- One below-cap chat inside the window: accepted, counter bumped. -/
theorem step_chatHi_accept (c : Nat) (hc : ¬ 30 ≤ c) :
    step ⟨[(0, ['a', 'l'])], [(0, ⟨c, 20000⟩)]⟩ (chatHi 20000) =
      (⟨[(0, ['a', 'l'])], [(0, ⟨c + 1, 20000⟩)]⟩,
       [OutMsg.chat 1 ['a', 'l'] ['h', 'i'] 20000]) := by
  have hget : mapGet [(0, (⟨c, 20000⟩ : RateState))] 0 = some ⟨c, 20000⟩ := rfl
  have hrl := checkRateLimit_within 20000 0 c 20000 [(0, ⟨c, 20000⟩)] hget (by decide)
  simp only [step, chatHi, handleMessage, hrl, if_neg hc]
  rfl

/-- One chat at the cap inside the window: silently dropped. -/
theorem step_chatHi_reject :
    step ⟨[(0, ['a', 'l'])], [(0, ⟨30, 20000⟩)]⟩ (chatHi 20000) =
      (⟨[(0, ['a', 'l'])], [(0, ⟨30, 20000⟩)]⟩, []) := by decide

/-- Running `k` rapid chats from count `c` inside one window broadcasts
exactly `min k (30 - c)` of them. -/
theorem c2_window_count (k : Nat) : ∀ c : Nat, c ≤ 30 →
    countChats (run ⟨[(0, ['a', 'l'])], [(0, ⟨c, 20000⟩)]⟩
      (List.replicate k (chatHi 20000))).2 = min k (30 - c) := by
  induction k with
  | zero => intro c hc; simp [run, countChats]
  | succ k ih =>
    intro c hc
    rw [List.replicate_succ]
    simp only [run]
    by_cases h30 : 30 ≤ c
    · have hceq : c = 30 := le_antisymm hc h30
      subst hceq
      rw [step_chatHi_reject]
      dsimp only
      rw [List.nil_append, ih 30 le_rfl]
      simp
    · rw [step_chatHi_accept c h30]
      dsimp only
      rw [countChats_append, ih (c + 1) (by omega)]
      have h1 : countChats [OutMsg.chat 1 ['a', 'l'] ['h', 'i'] 20000] = 1 := rfl
      rw [h1]
      omega

/-- C2 counterexample: (i) 31 rapid chats right after the join yield only 29
broadcasts, because the join itself consumed the first slot of the same
window, refuting the claim's "exactly 30" scenario; (ii) 59 chat broadcasts
all carry timestamps inside the single 10-second interval [9000, 19000]
(29 at t = 9000 and 30 at t = 10500, straddling the fixed-window reset),
refuting the claim's "at most 30 per rolling 10-second window". -/
theorem c2_counterexample :
    countChats (run initialState (joinAl 0 :: List.replicate 31 (chatHi 0))).2 = 29 ∧
    countChatsBetween 9000 19000
      (run initialState
        (joinAl 0 :: (List.replicate 29 (chatHi 9000) ++
          List.replicate 30 (chatHi 10500)))).2 = 59 := by
  exact ⟨by decide, by decide⟩

/-- C2 (amended): the limiter is a fixed 10-second window per connection that
counts every inbound frame, capped at 30; excess frames are dropped silently
without consuming extra quota. A joined connection whose chats start a fresh
window (here: join at t = 0, chats at t = 20000) gets exactly `min k 30`
broadcasts from `k` rapid chats - in particular exactly 30 from 31 - while
across a window reset more than 30 chats can land inside a rolling 10-second
span. -/
theorem c2_fixed_window_cap (k : Nat) :
    countChats (run initialState (joinAl 0 :: List.replicate k (chatHi 20000))).2 =
      min k 30 := by
  have hjoin : step initialState (joinAl 0) =
      (⟨[(0, ['a', 'l'])], [(0, ⟨1, 0⟩)]⟩,
       [OutMsg.users [['a', 'l']], OutMsg.system (['a', 'l'] ++ joinedSuffix) 0]) := by
    decide
  cases k with
  | zero => decide
  | succ k =>
    have hreset : step ⟨[(0, ['a', 'l'])], [(0, ⟨1, 0⟩)]⟩ (chatHi 20000) =
        (⟨[(0, ['a', 'l'])], [(0, ⟨1, 20000⟩)]⟩,
         [OutMsg.chat 1 ['a', 'l'] ['h', 'i'] 20000]) := by decide
    rw [List.replicate_succ]
    simp only [run]
    rw [hjoin]
    dsimp only
    rw [hreset]
    dsimp only
    rw [countChats_append, countChats_append, c2_window_count k 1 (by omega)]
    have h0 : countChats [OutMsg.users [['a', 'l']],
        OutMsg.system (['a', 'l'] ++ joinedSuffix) 0] = 0 := rfl
    have h1 : countChats [OutMsg.chat 1 ['a', 'l'] ['h', 'i'] 20000] = 1 := rfl
    rw [h0, h1]
    omega

/-- A step that is not a plausible join for `sock` cannot attach an identity
to a `sock` that has none. -/
theorem identity_none_preserved (s : ServerState) (e : Event) (sock : Nat)
    (hnone : mapGet s.connectedClientIdentityMap sock = none)
    (hnj : isAcceptableJoinFor sock e = false) :
    mapGet (step s e).1.connectedClientIdentityMap sock = none := by
  cases e with
  | message fresh now sock' frame =>
    cases frame with
    | malformed =>
      simp only [step]
      rw [handleMessage_malformed]
      exact hnone
    | parsed m =>
      simp only [step]
      rw [handleMessage_parsed_ident]
      by_cases hrl : (checkRateLimit now sock' s.socketRateLimiterState).1 = true
      · rw [if_pos hrl]
        by_cases hj : typeIs m.type joinType = true
        · simp only [isAcceptableJoinFor, hj] at hnj
          rw [handleParsed_join _ _ _ _ _ hj]
          by_cases hlen : 2 ≤ (sanitizeString m.username).length
          · rw [if_pos hlen]
            dsimp only
            have hss : sock' ≠ sock := by
              intro hss
              subst hss
              simp [hlen] at hnj
            rw [mapGet_mapSet_ne _ _ _ _ (fun hh => hss hh.symm)]
            exact hnone
          · rw [if_neg hlen]
            exact hnone
        · have hj' : typeIs m.type joinType = false := by
            revert hj; cases typeIs m.type joinType <;> simp
          by_cases hc : typeIs m.type chatType = true
          · rw [handleParsed_chat _ _ _ _ _ hc]
            exact hnone
          · have hc' : typeIs m.type chatType = false := by
              revert hc; cases typeIs m.type chatType <;> simp
            rw [handleParsed_other _ _ _ _ _ hj' hc']
            exact hnone
      · simp only [Bool.not_eq_true] at hrl
        simp only [hrl, Bool.false_eq_true, if_false]
        exact hnone
  | close now sock' =>
    simp only [step]
    rw [handleClose_eq]
    dsimp only
    by_cases hss : sock = sock'
    · subst hss
      exact mapGet_mapDelete_self _ _
    · rw [mapGet_mapDelete_ne _ _ _ hss]
      exact hnone
  | error sock' =>
    simp only [step, handleError]
    by_cases hss : sock = sock'
    · subst hss
      exact mapGet_mapDelete_self _ _
    · rw [mapGet_mapDelete_ne _ _ _ hss]
      exact hnone

/-- Over a whole trace: a connection that never sends a plausible join keeps
no identity. -/
theorem run_identity_none (es : List Event) : ∀ (s : ServerState) (sock : Nat),
    mapGet s.connectedClientIdentityMap sock = none →
    (∀ e ∈ es, isAcceptableJoinFor sock e = false) →
    mapGet (run s es).1.connectedClientIdentityMap sock = none := by
  induction es with
  | nil =>
    intro s sock h _
    simpa [run] using h
  | cons e rest ih =>
    intro s sock h hall
    simp only [run]
    exact ih (step s e).1 sock
      (identity_none_preserved s e sock h (hall e (List.mem_cons_self e rest)))
      (fun e' he' => hall e' (List.mem_cons_of_mem _ he'))

/-- C3 counterexample: a second join on the same connection overwrites the
stored identity - after joining as `'alice'` and then as `'bobby'`,
`identityOf` returns `'bobby'`, so the identity is not immutable. -/
theorem c3_counterexample :
    mapGet ((run initialState
      [Event.message 0 0 0 (Frame.parsed
        ⟨JSVal.str joinType, JSVal.str ['a', 'l', 'i', 'c', 'e'],
         JSVal.nonStr⟩)]).1.connectedClientIdentityMap) 0 =
      some ['a', 'l', 'i', 'c', 'e'] ∧
    mapGet ((run initialState
      [Event.message 0 0 0 (Frame.parsed
        ⟨JSVal.str joinType, JSVal.str ['a', 'l', 'i', 'c', 'e'], JSVal.nonStr⟩),
       Event.message 1 1 0 (Frame.parsed
        ⟨JSVal.str joinType, JSVal.str ['b', 'o', 'b', 'b', 'y'],
         JSVal.nonStr⟩)]).1.connectedClientIdentityMap) 0 =
      some ['b', 'o', 'b', 'b', 'y'] ∧
    (['b', 'o', 'b', 'b', 'y'] : List Char) ≠ ['a', 'l', 'i', 'c', 'e'] := by
  exact ⟨by decide, by decide, by decide⟩

/-- C3 (amended): `identityOf` returns none until a successful join (a
connection that never sends a join-typed message with a valid username keeps
no identity), but the identity is not immutable: any accepted join - first or
later - stores the sanitized username of that join, so a second join renames
the connection. -/
theorem c3_identity_none_until_join_but_overwritable :
    (∀ (es : List Event) (sock : Nat),
       (∀ e ∈ es, isAcceptableJoinFor sock e = false) →
       mapGet (run initialState es).1.connectedClientIdentityMap sock = none) ∧
    (∀ (s : ServerState) (fresh : Nat) (now : Int) (sock : Nat) (msg : ParsedMsg),
       typeIs msg.type joinType = true →
       2 ≤ (sanitizeString msg.username).length →
       (checkRateLimit now sock s.socketRateLimiterState).1 = true →
       mapGet (handleMessage fresh now sock
           (Frame.parsed msg) s).1.connectedClientIdentityMap sock =
         some (sanitizeString msg.username)) := by
  constructor
  · intro es sock hall
    exact run_identity_none es initialState sock rfl hall
  · intro s fresh now sock msg hj hlen hrl
    rw [handleMessage_parsed_ident, if_pos hrl, handleParsed_join _ _ _ _ _ hj,
      if_pos hlen]
    exact mapGet_mapSet_self _ _ _

/-- C3 witness: both parts instantiated - a close-only trace keeps no
identity, and a join on an already-joined connection overwrites it. -/
theorem c3_identity_none_until_join_but_overwritable_witness :
    ((∀ e ∈ ([Event.close 0 5] : List Event), isAcceptableJoinFor 0 e = false) ∧
     mapGet (run initialState
       [Event.close 0 5]).1.connectedClientIdentityMap 0 = none) ∧
    ((typeIs (JSVal.str joinType) joinType = true ∧
      2 ≤ (sanitizeString (JSVal.str ['b', 'o', 'b', 'b', 'y'])).length ∧
      (checkRateLimit 1 0 (⟨[(0, ['a', 'l', 'i', 'c', 'e'])], []⟩ :
        ServerState).socketRateLimiterState).1 = true) ∧
     mapGet (handleMessage 1 1 0
        (Frame.parsed ⟨JSVal.str joinType, JSVal.str ['b', 'o', 'b', 'b', 'y'],
          JSVal.nonStr⟩)
        ⟨[(0, ['a', 'l', 'i', 'c', 'e'])], []⟩).1.connectedClientIdentityMap 0 =
       some (sanitizeString (JSVal.str ['b', 'o', 'b', 'b', 'y']))) := by
  refine ⟨⟨by decide, ?_⟩, ⟨by decide, by decide, by decide⟩, ?_⟩
  · exact c3_identity_none_until_join_but_overwritable.1 [Event.close 0 5] 0 (by decide)
  · exact c3_identity_none_until_join_but_overwritable.2
      ⟨[(0, ['a', 'l', 'i', 'c', 'e'])], []⟩ 1 1 0 _ (by decide) (by decide) (by decide)

/-- One step preserves "every stored identity passed the sanitizer and the
length check", and every `users` payload it broadcasts is exactly the roster
of the post-step registry. -/
theorem step_preserves_goodNames (s : ServerState) (e : Event)
    (h : ∀ n ∈ mapValues s.connectedClientIdentityMap, goodName n) :
    (∀ n ∈ mapValues (step s e).1.connectedClientIdentityMap, goodName n) ∧
    (∀ us, OutMsg.users us ∈ (step s e).2 →
       us = mapValues (step s e).1.connectedClientIdentityMap) := by
  cases e with
  | message fresh now sock' frame =>
    cases frame with
    | malformed =>
      simp only [step]
      rw [handleMessage_malformed]
      exact ⟨h, by intro us hus; simp at hus⟩
    | parsed m =>
      simp only [step]
      by_cases hrl : (checkRateLimit now sock' s.socketRateLimiterState).1 = true
      · by_cases hj : typeIs m.type joinType = true
        · by_cases hlen : 2 ≤ (sanitizeString m.username).length
          · have hident : (handleMessage fresh now sock' (Frame.parsed m)
                s).1.connectedClientIdentityMap =
                mapSet s.connectedClientIdentityMap sock' (sanitizeString m.username) := by
              rw [handleMessage_parsed_ident, if_pos hrl,
                handleParsed_join _ _ _ _ _ hj, if_pos hlen]
            have hout : (handleMessage fresh now sock' (Frame.parsed m) s).2 =
                [OutMsg.users (mapValues (mapSet s.connectedClientIdentityMap sock'
                    (sanitizeString m.username))),
                 OutMsg.system (sanitizeString m.username ++ joinedSuffix) now] := by
              rw [handleMessage_parsed_out, if_pos hrl,
                handleParsed_join _ _ _ _ _ hj, if_pos hlen]
            constructor
            · intro n hn
              rw [hident] at hn
              rcases mem_mapValues_mapSet hn with hn | hn
              · subst hn
                exact ⟨hlen, sanitizeString_length_le _, sanitizeString_not_mem_lt _,
                  sanitizeString_not_mem_gt _⟩
              · exact h n hn
            · intro us hus
              rw [hout] at hus
              rw [hident]
              rcases List.mem_cons.mp hus with hus | hus
              · simpa using hus
              · simp at hus
          · have hident : (handleMessage fresh now sock' (Frame.parsed m)
                s).1.connectedClientIdentityMap = s.connectedClientIdentityMap := by
              rw [handleMessage_parsed_ident, if_pos hrl,
                handleParsed_join _ _ _ _ _ hj, if_neg hlen]
            have hout : (handleMessage fresh now sock' (Frame.parsed m) s).2 = [] := by
              rw [handleMessage_parsed_out, if_pos hrl,
                handleParsed_join _ _ _ _ _ hj, if_neg hlen]
            rw [hident, hout]
            exact ⟨h, by intro us hus; simp at hus⟩
        · have hj' : typeIs m.type joinType = false := by
            revert hj; cases typeIs m.type joinType <;> simp
          by_cases hc : typeIs m.type chatType = true
          · have hident : (handleMessage fresh now sock' (Frame.parsed m)
                s).1.connectedClientIdentityMap = s.connectedClientIdentityMap := by
              rw [handleMessage_parsed_ident, if_pos hrl, handleParsed_chat _ _ _ _ _ hc]
            have hout : (handleMessage fresh now sock' (Frame.parsed m) s).2 =
                (match mapGet s.connectedClientIdentityMap sock' with
                 | some name =>
                   if jsTruthy name && jsTruthy (sanitizeString m.message) then
                     [OutMsg.chat fresh name (sanitizeString m.message) now]
                   else []
                 | none => []) := by
              rw [handleMessage_parsed_out, if_pos hrl, handleParsed_chat _ _ _ _ _ hc]
            rw [hident, hout]
            refine ⟨h, ?_⟩
            intro us hus
            cases hm : mapGet s.connectedClientIdentityMap sock' with
            | none => rw [hm] at hus; simp at hus
            | some name =>
              rw [hm] at hus
              dsimp only at hus
              by_cases hg : (jsTruthy name && jsTruthy (sanitizeString m.message)) = true
              · rw [if_pos hg] at hus
                simp at hus
              · rw [if_neg hg] at hus
                simp at hus
          · have hc' : typeIs m.type chatType = false := by
              revert hc; cases typeIs m.type chatType <;> simp
            have hident : (handleMessage fresh now sock' (Frame.parsed m)
                s).1.connectedClientIdentityMap = s.connectedClientIdentityMap := by
              rw [handleMessage_parsed_ident, if_pos hrl,
                handleParsed_other _ _ _ _ _ hj' hc']
            have hout : (handleMessage fresh now sock' (Frame.parsed m) s).2 = [] := by
              rw [handleMessage_parsed_out, if_pos hrl,
                handleParsed_other _ _ _ _ _ hj' hc']
            rw [hident, hout]
            exact ⟨h, by intro us hus; simp at hus⟩
      · simp only [Bool.not_eq_true] at hrl
        have hident : (handleMessage fresh now sock' (Frame.parsed m)
            s).1.connectedClientIdentityMap = s.connectedClientIdentityMap := by
          rw [handleMessage_parsed_ident, hrl]
          simp
        have hout : (handleMessage fresh now sock' (Frame.parsed m) s).2 = [] := by
          rw [handleMessage_parsed_out, hrl]
          simp
        rw [hident, hout]
        exact ⟨h, by intro us hus; simp at hus⟩
  | close now sock' =>
    simp only [step]
    rw [handleClose_eq]
    dsimp only
    constructor
    · intro n hn
      exact h n (mem_mapValues_mapDelete hn)
    · intro us hus
      cases hm : mapGet s.connectedClientIdentityMap sock' with
      | none => rw [hm] at hus; simp at hus
      | some name =>
        rw [hm] at hus
        dsimp only at hus
        by_cases hg : jsTruthy name = true
        · rw [if_pos hg] at hus
          rcases List.mem_cons.mp hus with hus | hus
          · simpa using hus
          · simp at hus
        · rw [if_neg hg] at hus
          simp at hus
  | error sock' =>
    simp only [step, handleError]
    constructor
    · intro n hn
      exact h n (mem_mapValues_mapDelete hn)
    · intro us hus
      simp at hus

/-- Over a whole trace from a good state: the registry stays good and every
`users` broadcast lists only good names. -/
theorem run_goodNames (es : List Event) : ∀ s : ServerState,
    (∀ n ∈ mapValues s.connectedClientIdentityMap, goodName n) →
    (∀ n ∈ mapValues (run s es).1.connectedClientIdentityMap, goodName n) ∧
    (∀ us, OutMsg.users us ∈ (run s es).2 → ∀ n ∈ us, goodName n) := by
  induction es with
  | nil =>
    intro s h
    refine ⟨by simpa [run] using h, ?_⟩
    intro us hus
    simp [run] at hus
  | cons e rest ih =>
    intro s h
    have hstep := step_preserves_goodNames s e h
    have hih := ih (step s e).1 hstep.1
    constructor
    · simp only [run]
      exact hih.1
    · intro us hus
      simp only [run] at hus
      rw [List.mem_append] at hus
      rcases hus with hus | hus
      · intro n hn
        have heq := hstep.2 us hus
        exact hstep.1 n (heq ▸ hn)
      · exact hih.2 us hus

/-- C10 counterexample: the claim says every stored identity is a trimmed
string, but joining as `'<  ab  >'` stores `'  ab  '` (the trim happens
before the angle brackets are removed, so removal re-exposes edge
whitespace). -/
theorem c10_counterexample :
    (run initialState
      [Event.message 0 0 0 (Frame.parsed ⟨JSVal.str joinType,
        JSVal.str ['<', ' ', ' ', 'a', 'b', ' ', ' ', '>'],
        JSVal.nonStr⟩)]).1.connectedClientIdentityMap =
      [(0, [' ', ' ', 'a', 'b', ' ', ' '])] ∧
    jsTrim [' ', ' ', 'a', 'b', ' ', ' '] ≠ [' ', ' ', 'a', 'b', ' ', ' '] := by
  exact ⟨by decide, by decide⟩

/-- C10 (amended): every identity stored in the registry over any trace from
startup was produced by `sanitizeString` and passed the length check, so it
has length between 2 and 1000 and contains neither `<` nor `>` - and the same
holds for every entry of every broadcast `users` list; stored identities need
not be trimmed, however, since bracket removal runs after the trim. -/
theorem c10_registry_identities_sanitized :
    (∀ (es : List Event) (n : List Char),
       n ∈ mapValues (run initialState es).1.connectedClientIdentityMap →
       goodName n) ∧
    (∀ (es : List Event) (us : List (List Char)) (n : List Char),
       OutMsg.users us ∈ (run initialState es).2 → n ∈ us → goodName n) := by
  constructor
  · intro es n hn
    exact (run_goodNames es initialState (by intro n hn; simp [initialState,
      mapValues] at hn)).1 n hn
  · intro es us n hus hn
    exact (run_goodNames es initialState (by intro n hn; simp [initialState,
      mapValues] at hn)).2 us hus n hn

/-- C10 witness: the identity stored by a concrete join, and the roster entry
it broadcasts, certified good by the theorem. -/
theorem c10_registry_identities_sanitized_witness :
    (['a', 'l'] ∈ mapValues (run initialState
        [joinAl 0]).1.connectedClientIdentityMap ∧
     goodName ['a', 'l']) ∧
    (OutMsg.users [['a', 'l']] ∈ (run initialState [joinAl 0]).2 ∧
     ['a', 'l'] ∈ ([['a', 'l']] : List (List Char)) ∧
     goodName ['a', 'l']) :=
  ⟨⟨by decide, c10_registry_identities_sanitized.1 [joinAl 0] ['a', 'l'] (by decide)⟩,
   ⟨by decide, by decide,
    c10_registry_identities_sanitized.2 [joinAl 0] [['a', 'l']] ['a', 'l']
      (by decide) (by decide)⟩⟩
